import Mathlib

/-!
Shallow embedding of the MicroSQL engine (`src/index.ts`).

Strings are modelled as `List Char`.  JavaScript numbers produced by
`parseFloat` / `Number` on decimal literals are modelled exactly by the
decimal type `Dec` below (`Option Dec` where `none` stands for `NaN`),
whose comparisons are the exact rational ones; machine-float rounding,
hex or `Infinity` literals and non-integral JSON values do not occur in
any scenario modelled here.  Row values (`Row = Record<string, any>` in
the source) are strings, integral JSON numbers, `null`, or `undefined`
for an absent field.  All recursion is structural, or fuelled with an
initial fuel proved adequate by construction (each step consumes at
least one character), so every definition reduces inside the kernel.
-/

deriving instance DecidableEq for Except

/-! ### Character classes and basic string helpers -/

/-- The double-quote character. -/
def dqc : Char := Char.ofNat 34

/-- The single-quote character. -/
def sqc : Char := Char.ofNat 39

/-- The backslash character. -/
def bsl : Char := Char.ofNat 92

/-- The opening parenthesis. -/
def oparen : Char := Char.ofNat 40

/-- The closing parenthesis. -/
def cparen : Char := Char.ofNat 41

/-- The comma. -/
def commaChar : Char := Char.ofNat 44

/-- The equals sign. -/
def eqChar : Char := Char.ofNat 61

/-- JavaScript whitespace (`\s`, and the set removed by `String.trim`),
restricted to its ASCII part, which is the only part that occurs in the
modelled statements. -/
def isWsChar (c : Char) : Bool :=
  c.val = 32 || c.val = 9 || c.val = 10 || c.val = 11 || c.val = 12 || c.val = 13

/-- JavaScript `\w`: ASCII letters, digits and underscore. -/
def isWordChar (c : Char) : Bool :=
  (65 ≤ c.val && c.val ≤ 90) || (97 ≤ c.val && c.val ≤ 122) ||
    (48 ≤ c.val && c.val ≤ 57) || c.val = 95

/-- ASCII decimal digit. -/
def isDigitChar (c : Char) : Bool := 48 ≤ c.val && c.val ≤ 57

/-- JavaScript `.` without the `s` flag: any character except the four
line terminators. -/
def jsDot (c : Char) : Bool :=
  !(c.val = 10 || c.val = 13 || c.val = 8232 || c.val = 8233)

/-- JavaScript `String.prototype.trim`: drop whitespace at both ends. -/
def trimL (l : List Char) : List Char :=
  ((l.dropWhile isWsChar).reverse.dropWhile isWsChar).reverse

/-- Case-insensitively strip the pattern `pat` from the front of `l`,
returning the remainder (models a case-insensitive literal regex
fragment). -/
def ciStrip : List Char → List Char → Option (List Char)
  | [], l => some l
  | _ :: _, [] => none
  | p :: ps, c :: cs =>
    if Char.toLower p = Char.toLower c then ciStrip ps cs else none

/-- Uppercase a character list (`String.prototype.toUpperCase`, ASCII). -/
def toUpperList (l : List Char) : List Char := l.map Char.toUpper

/-! ### Quoted-Splitter (`splitRespectingQuotes`, src lines 159-189)

State machine over the characters: `current` accumulator, `inQuotes`
flag and active `quoteChar`.  A quote of either kind opens a span when
not already in quotes; only the same quote character closes it; the
delimiter splits only outside quotes.  Segments are trimmed; segments
produced at a delimiter are pushed unconditionally, the final segment
only if non-empty after trimming. -/

def splitRQGo (delim : Char) : List Char → List Char → Bool → Option Char →
    List (List Char) → List (List Char)
  | [], current, _, _, acc =>
    if trimL current = [] then acc else acc ++ [trimL current]
  | c :: cs, current, inQuotes, quoteChar, acc =>
    if (c = dqc ∨ c = sqc) ∧ ¬ inQuotes then
      splitRQGo delim cs (current ++ [c]) true (some c) acc
    else if some c = quoteChar ∧ inQuotes then
      splitRQGo delim cs (current ++ [c]) false none acc
    else if c = delim ∧ ¬ inQuotes then
      splitRQGo delim cs [] inQuotes quoteChar (acc ++ [trimL current])
    else
      splitRQGo delim cs (current ++ [c]) inQuotes quoteChar acc

/-- `splitRespectingQuotes(str, delimiter)` from the source. -/
def splitRespectingQuotes (str : List Char) (delim : Char) : List (List Char) :=
  splitRQGo delim str [] false none []

/-- String-level wrapper returning `String`s, for readable statements. -/
def splitRespectingQuotesS (s : String) (delim : Char) : List String :=
  (splitRespectingQuotes s.data delim).map (fun l => String.mk l)

/-! ### Logical-Splitter (`splitLogicalOperator`, src lines 210-254)

Besides the quote state (with backslash-escape suppression) it tracks a
parenthesis `depth` (an integer; unbalanced input may drive it
negative, and is tolerated).  After the state update for the current
character, if outside quotes at depth 0 and the remaining text begins
with `\s+OPERATOR\s+` (case-insensitive, both whitespace runs maximal),
the accumulated term is trimmed and pushed and the scanner jumps past
the matched span. -/

/-- Match `\s+op\s+` at the head of `rest`: returns the last matched
character (always whitespace) and the total matched length.  Both
whitespace runs are maximal, which is what the backtracking regex
produces since whitespace and the operator letters are disjoint. -/
def matchOpWs (rest : List Char) (op : List Char) : Option (Char × Nat) :=
  let lead := rest.takeWhile isWsChar
  if lead = [] then none
  else
    match ciStrip op (rest.drop lead.length) with
    | none => none
    | some afterOp =>
      let trail := afterOp.takeWhile isWsChar
      if trail = [] then none
      else some (trail.getLastD (Char.ofNat 32), lead.length + op.length + trail.length)

def splitLogGo (op : List Char) : Nat → List Char → List Char → Bool →
    Option Char → Int → Option Char → List (List Char) → List (List Char)
  | 0, _, current, _, _, _, _, acc =>
    -- fuel exhaustion is unreachable: the initial fuel exceeds the
    -- character count and every step consumes at least one character
    if trimL current = [] then acc else acc ++ [trimL current]
  | _ + 1, [], current, _, _, _, _, acc =>
    if trimL current = [] then acc else acc ++ [trimL current]
  | fuel + 1, c :: cs, current, inQuotes, quoteChar, depth, prev, acc =>
    if (c = dqc ∨ c = sqc) ∧ ¬ inQuotes ∧ ¬ (prev = some bsl) then
      splitLogGo op fuel cs (current ++ [c]) true (some c) depth (some c) acc
    else if some c = quoteChar ∧ inQuotes ∧ ¬ (prev = some bsl) then
      splitLogGo op fuel cs (current ++ [c]) false none depth (some c) acc
    else if c = oparen ∧ ¬ inQuotes then
      splitLogGo op fuel cs (current ++ [c]) inQuotes quoteChar (depth + 1) (some c) acc
    else if c = cparen ∧ ¬ inQuotes then
      splitLogGo op fuel cs (current ++ [c]) inQuotes quoteChar (depth - 1) (some c) acc
    else if ¬ inQuotes ∧ depth = 0 then
      match matchOpWs (c :: cs) op with
      | some (lastWs, k) =>
        splitLogGo op fuel ((c :: cs).drop k) [] inQuotes quoteChar depth
          (some lastWs) (acc ++ [trimL current])
      | none =>
        splitLogGo op fuel cs (current ++ [c]) inQuotes quoteChar depth (some c) acc
    else
      splitLogGo op fuel cs (current ++ [c]) inQuotes quoteChar depth (some c) acc

/-- `splitLogicalOperator(clause, operator)` from the source.  If no part
was collected the untrimmed original clause is returned as the single
element. -/
def splitLogicalOperator (clause : List Char) (op : List Char) : List (List Char) :=
  let parts := splitLogGo op (clause.length + 1) clause [] false none 0 none []
  if parts = [] then [clause] else parts

/-- The literal word `OR`. -/
def orTok : List Char := ("OR").data

/-- The literal word `AND`. -/
def andTok : List Char := ("AND").data

/-! ### Data model

A record (`Row = Record<string, any>`) is an insertion-ordered mapping
from field names to values.  `vUndef` is the value of an absent field
(JavaScript `undefined`); `vNum` covers the integral JSON numbers that
occur in the modelled tables. -/

inductive Value
  | vStr (s : String)
  | vNum (n : Int)
  | vNull
  | vUndef
  deriving DecidableEq

abbrev Row := List (String × Value)

/-- Property read `row[field]`: the stored value, or `undefined`. -/
def rowGet : Row → List Char → Value
  | [], _ => Value.vUndef
  | (k, v) :: rest, f => if k.data = f then v else rowGet rest f

/-- JavaScript object assignment `obj[k] = v`: overwrite in place, else
append (insertion order preserved). -/
def rowSet : Row → String → Value → Row
  | [], k, v => [(k, v)]
  | (k0, v0) :: rest, k, v =>
    if k0 = k then (k0, v) :: rest else (k0, v0) :: rowSet rest k v

/-- Decimal digits to a natural number. -/
def digitsToNat (l : List Char) : Nat :=
  l.foldl (fun acc c => 10 * acc + (c.val.toNat - 48)) 0

/-- Integer to its decimal string (JavaScript `String(n)` for integral
numbers). -/
def intToStr (n : Int) : List Char :=
  if n < 0 then Char.ofNat 45 :: Nat.toDigits 10 (-n).toNat
  else Nat.toDigits 10 n.toNat

/-- JavaScript `String(v)` on a row value. -/
def valueToStr : Value → List Char
  | Value.vStr s => s.data
  | Value.vNum n => intToStr n
  | Value.vNull => ("null").data
  | Value.vUndef => ("undefined").data

/-- An exact decimal number: the rational `num / 10 ^ pow`.  The
representation is not normalised; all comparisons cross-multiply, so
they agree with the rational (hence with the exact floating-point)
comparisons for the literals modelled here. -/
structure Dec where
  num : Int
  pow : Nat
  deriving DecidableEq

/-- The decimal denoting the integer `n`. -/
def Dec.ofInt (n : Int) : Dec := ⟨n, 0⟩

/-- Exact `<` on decimals (cross-multiplied; denominators are positive). -/
def decLt (a b : Dec) : Bool := a.num * 10 ^ b.pow < b.num * 10 ^ a.pow

/-- Exact `≤` on decimals. -/
def decLe (a b : Dec) : Bool := a.num * 10 ^ b.pow ≤ b.num * 10 ^ a.pow

/-- Exact `=` on decimal values. -/
def decEqb (a b : Dec) : Bool := a.num * 10 ^ b.pow = b.num * 10 ^ a.pow

/-- Read an optional exponent `e`/`E` `[+-]?` `digits+`; it is consumed
only when at least one digit follows (as `parseFloat` does, and `Number`
requires).  Returns the exponent and the remaining characters. -/
def readExp (l : List Char) : Int × List Char :=
  match l with
  | c :: cs =>
    if c.val = 101 ∨ c.val = 69 then
      match cs with
      | d :: ds =>
        if d.val = 45 then
          let digs := ds.takeWhile isDigitChar
          if digs = [] then (0, l) else (-(digitsToNat digs : Int), ds.drop digs.length)
        else if d.val = 43 then
          let digs := ds.takeWhile isDigitChar
          if digs = [] then (0, l) else ((digitsToNat digs : Int), ds.drop digs.length)
        else
          let digs := cs.takeWhile isDigitChar
          if digs = [] then (0, l) else ((digitsToNat digs : Int), cs.drop digs.length)
      | [] => (0, l)
    else (0, l)
  | [] => (0, l)

/-- Sign, mantissa digits and decimal exponent to the exact decimal
value `±(intPart.fracPart) * 10 ^ exp`. -/
def decOfParts (neg : Bool) (intPart fracPart : List Char) (exp : Int) : Dec :=
  let mant : Int := (digitsToNat intPart * 10 ^ fracPart.length + digitsToNat fracPart : Nat)
  let signed : Int := if neg then -mant else mant
  if 0 ≤ exp then ⟨signed * 10 ^ exp.toNat, fracPart.length⟩
  else ⟨signed, fracPart.length + (-exp).toNat⟩

/-- Sign, integer digits, fraction digits and remainder of a decimal
literal starting at `l` (no leading whitespace).  Fails when there is no
digit at all. -/
def readDecimal (l : List Char) : Option (Bool × List Char × List Char × List Char) :=
  let signAndRest : Bool × List Char :=
    match l with
    | c :: cs => if c.val = 45 then (true, cs) else if c.val = 43 then (false, cs) else (false, l)
    | [] => (false, l)
  let neg := signAndRest.1
  let r1 := signAndRest.2
  let intPart := r1.takeWhile isDigitChar
  let r2 := r1.drop intPart.length
  match r2 with
  | c :: cs =>
    if c.val = 46 then
      let fracPart := cs.takeWhile isDigitChar
      if intPart = [] ∧ fracPart = [] then none
      else some (neg, intPart, fracPart, cs.drop fracPart.length)
    else if intPart = [] then none else some (neg, intPart, [], r2)
  | [] => if intPart = [] then none else some (neg, intPart, [], [])

/-- JavaScript `parseFloat`: skip leading whitespace, then parse the
longest decimal-literal suffix; `none` is `NaN`.  (`Infinity` literals
are outside the modelled scenarios.) -/
def jsParseFloat (l : List Char) : Option Dec :=
  match readDecimal (l.dropWhile isWsChar) with
  | none => none
  | some (neg, intPart, fracPart, rest) =>
    let er := readExp rest
    some (decOfParts neg intPart fracPart er.1)

/-- JavaScript `Number(s)` on a string: trimmed empty string is `0`;
otherwise the whole trimmed string must be a decimal literal (hex,
binary and `Infinity` forms are outside the modelled scenarios);
`none` is `NaN`. -/
def jsNumberStr (l : List Char) : Option Dec :=
  let t := trimL l
  if t = [] then some (Dec.ofInt 0)
  else
    match readDecimal t with
    | none => none
    | some (neg, intPart, fracPart, rest) =>
      let er := readExp rest
      if er.2 = [] then some (decOfParts neg intPart fracPart er.1) else none

/-- `parseFloat(v)` on a row value: the value is stringified first. -/
def parseFloatVal (v : Value) : Option Dec := jsParseFloat (valueToStr v)

/-- JavaScript loose equality `actual == value` where `value` is always
a string (the quote-stripped literal): string-string compares strings,
number-string converts the string with `Number`, `null`/`undefined`
never equal a string. -/
def looseEq (actual : Value) (value : List Char) : Bool :=
  match actual with
  | Value.vStr s => s.data = value
  | Value.vNum n =>
    match jsNumberStr value with
    | some q => decEqb (Dec.ofInt n) q
    | none => false
  | Value.vNull => false
  | Value.vUndef => false

/-! ### Leaf-condition matcher (`evalCondition`, src lines 256-297)

The source matches the unanchored, case-insensitive pattern
`(\w+)\s*(=|>=|<=|>|<|LIKE|IN)\s*(\([^\)]+\)|["'][^"']*["']|\S+)`.
The embedding replays the backtracking engine: positions are tried left
to right; at each position the greedy `\w+` run is tried longest first;
operator alternatives are tried in the written order; the three value
alternatives are tried in order (each one is deterministic).  The
`\s*` runs are deterministic because whitespace is disjoint from every
character that can follow them. -/

/-- Strip one layer of surrounding quote characters,
`replace(/^["']|["']$/g, "")`: at most one leading and one trailing
quote, independently, of either kind. -/
def stripQuotes (l : List Char) : List Char :=
  let l1 := match l with
    | c :: cs => if c = dqc ∨ c = sqc then cs else l
    | [] => l
  match l1.getLast? with
  | some c => if c = dqc ∨ c = sqc then l1.dropLast else l1
  | none => l1

/-- Strip one layer of surrounding parentheses,
`replace(/^\(|\)$/g, "")`. -/
def stripParens (l : List Char) : List Char :=
  let l1 := match l with
    | c :: cs => if c = oparen then cs else l
    | [] => l
  match l1.getLast? with
  | some c => if c = cparen then l1.dropLast else l1
  | none => l1

/-- The operator alternatives, in the order of the regex alternation. -/
def opAlts : List (List Char) :=
  [("=").data, (">=").data, ("<=").data, (">").data, ("<").data,
    ("LIKE").data, ("IN").data]

/-- Value alternative 1, `\([^\)]+\)`: a parenthesis, at least one
non-`)` character, then `)`. -/
def valueAltParen (rest : List Char) : Option (List Char) :=
  match rest with
  | c :: tl =>
    if c = oparen then
      let inner := tl.takeWhile (fun d => ¬ (d = cparen))
      match tl.drop inner.length with
      | d :: _ => if inner = [] then none else some (c :: (inner ++ [d]))
      | [] => none
    else none
  | [] => none

/-- Value alternative 2, `["'][^"']*["']`: a quote of either kind, a
possibly-empty run free of both quote characters, then a quote of
either kind (they need not match). -/
def valueAltQuoted (rest : List Char) : Option (List Char) :=
  match rest with
  | c :: tl =>
    if c = dqc ∨ c = sqc then
      let inner := tl.takeWhile (fun d => ¬ (d = dqc ∨ d = sqc))
      match tl.drop inner.length with
      | d :: _ => some (c :: (inner ++ [d]))
      | [] => none
    else none
  | [] => none

/-- Value alternative 3, `\S+`: the maximal non-empty run of
non-whitespace characters. -/
def valueAltBare (rest : List Char) : Option (List Char) :=
  let run := rest.takeWhile (fun d => ¬ (isWsChar d = true))
  if run = [] then none else some run

/-- The full value alternation, in order. -/
def valueTok (rest : List Char) : Option (List Char) :=
  match valueAltParen rest with
  | some v => some v
  | none =>
    match valueAltQuoted rest with
    | some v => some v
    | none => valueAltBare rest

/-- Try the operator alternatives in order at `rest`; on a
case-insensitive hit, skip `\s*` and try the value alternation.
Returns (operator text as matched, value token). -/
def opValueTry : List (List Char) → List Char → Option (List Char × List Char)
  | [], _ => none
  | o :: os, rest =>
    match ciStrip o rest with
    | some afterOp =>
      match valueTok (afterOp.dropWhile isWsChar) with
      | some v => some (rest.take o.length, v)
      | none => opValueTry os rest
    | none => opValueTry os rest

/-- Try a match whose `\w+` group has exactly `k` characters. -/
def condTryLen (l : List Char) (k : Nat) : Option (List Char × List Char × List Char) :=
  let field := l.take k
  match opValueTry opAlts ((l.drop k).dropWhile isWsChar) with
  | some (op, v) => some (field, op, v)
  | none => none

/-- Greedy-with-backtracking `\w+`: try `k` word characters, longest
first. -/
def condKLoop (l : List Char) : Nat → Option (List Char × List Char × List Char)
  | 0 => none
  | k + 1 =>
    match condTryLen l (k + 1) with
    | some t => some t
    | none => condKLoop l k

/-- A match attempt anchored at the head of `l`. -/
def condMatchAt (l : List Char) : Option (List Char × List Char × List Char) :=
  condKLoop l (l.takeWhile isWordChar).length

/-- The first (leftmost) match of the leaf-condition pattern:
`(field, operator, rawValue)`, or `none`. -/
def condMatch : List Char → Option (List Char × List Char × List Char)
  | [] => none
  | l@(_ :: cs) =>
    match condMatchAt l with
    | some t => some t
    | none => condMatch cs

/-! ### LIKE pattern (src lines 278-286)

The source escapes every regex metacharacter except `%` and `_` in the
quote-stripped literal, maps `%` to `.*` and `_` to `.`, anchors with
`^`/`$` and tests case-insensitively.  Since everything except the two
wildcards is escaped, the compiled pattern is exactly a sequence of
literal characters (compared case-insensitively), single-character
wildcards and `.*` spans; `.` does not cross line terminators. -/

inductive LikeTok
  | lit (c : Char)
  | anyOne
  | anyStar
  deriving DecidableEq

/-- Compile the quote-stripped literal to the token list of the
generated pattern. -/
def likeToks (v : List Char) : List LikeTok :=
  v.map (fun c =>
    if c.val = 37 then LikeTok.anyStar
    else if c.val = 95 then LikeTok.anyOne
    else LikeTok.lit c)

/-- The suffixes of `s` reachable by consuming `.`-matchable characters
(used for `.*`): the whole list, and every suffix obtained by dropping
a prefix of non-line-terminator characters. -/
def dotTails : List Char → List (List Char)
  | [] => [[]]
  | d :: ds => (d :: ds) :: (if jsDot d then dotTails ds else [])

/-- Anchored match of the compiled pattern against the whole string,
with case-insensitive literal comparison. -/
def likeMatch : List LikeTok → List Char → Bool
  | [], s => s.isEmpty
  | LikeTok.lit c :: ts, s =>
    match s with
    | [] => false
    | d :: ds => (Char.toLower c = Char.toLower d) && likeMatch ts ds
  | LikeTok.anyOne :: ts, s =>
    match s with
    | [] => false
    | d :: ds => jsDot d && likeMatch ts ds
  | LikeTok.anyStar :: ts, s => (dotTails s).any (fun suf => likeMatch ts suf)

/-! ### Condition evaluation (`evalCondition`, src lines 256-297) -/

/-- `evalCondition(expr, row)` from the source: match the leaf pattern
(else `false`), then dispatch on the uppercased operator. -/
def evalCondition (expr : List Char) (row : Row) : Bool :=
  match condMatch expr with
  | none => false
  | some (field, op, rawValue) =>
    let actual := rowGet row field
    let opU := toUpperList op
    if opU = ("=").data then
      looseEq actual (stripQuotes rawValue)
    else if opU = (">").data then
      match parseFloatVal actual, jsParseFloat rawValue with
      | some a, some b => decLt b a
      | _, _ => false
    else if opU = ("<").data then
      match parseFloatVal actual, jsParseFloat rawValue with
      | some a, some b => decLt a b
      | _, _ => false
    else if opU = (">=").data then
      match parseFloatVal actual, jsParseFloat rawValue with
      | some a, some b => decLe b a
      | _, _ => false
    else if opU = ("<=").data then
      match parseFloatVal actual, jsParseFloat rawValue with
      | some a, some b => decLe a b
      | _, _ => false
    else if opU = ("LIKE").data then
      likeMatch (likeToks (stripQuotes rawValue)) (valueToStr actual)
    else if opU = ("IN").data then
      let list := (splitRespectingQuotes (stripParens rawValue) commaChar).map stripQuotes
      list.any (fun t => t = valueToStr actual)
    else
      false

/-! ### Where-Evaluator (`evalWhere`, src lines 191-208) -/

/-- The `while (startsWith "(" && endsWith ")")` unwrapping loop with a
`trim` after every slice; the scrutinee is trimmed first, mirroring the
`.trim()` the source applies before the loop.  Fuel: each iteration
removes two characters, so the length is an adequate bound. -/
def stripWrapGo : Nat → List Char → List Char
  | 0, l => l
  | fuel + 1, l =>
    if l.head? = some oparen ∧ l.getLast? = some cparen then
      stripWrapGo fuel (trimL ((l.drop 1).dropLast))
    else l

/-- Trim, then strip fully-wrapping parenthesis layers (naive
starts-with/ends-with check, exactly as the source). -/
def stripWrap (l : List Char) : List Char := stripWrapGo l.length (trimL l)

/-- One OR-branch: strip wrapping parentheses, split on `AND`, and
require every AND-term (itself unwrapped) to hold. -/
def evalOrBranch (row : Row) (orPart : List Char) : Bool :=
  (splitLogicalOperator (stripWrap orPart) andTok).all
    (fun e => evalCondition (stripWrap e) row)

/-- `evalWhere(whereClause, row)` from the source: split on `OR` and
require some OR-branch to hold. -/
def evalWhere (whereClause : List Char) (row : Row) : Bool :=
  (splitLogicalOperator whereClause orTok).any (evalOrBranch row)

/-- String-level wrapper. -/
def evalWhereS (w : String) (row : Row) : Bool := evalWhere w.data row

/-- String-level wrapper. -/
def evalConditionS (e : String) (row : Row) : Bool := evalCondition e.data row

/-! ### ORDER BY (`select` lines 53-62, `coerceValue` lines 81-85)

`coerceValue` turns a value into a number when `Number(value)` is not
`NaN`, else leaves it; the comparator then applies JavaScript `<`/`>`,
which compares two strings lexicographically by code units and anything
else numerically (`NaN` making both comparisons false).  `Array.sort`
is stable; a stable insertion sort is used here, which agrees with any
stable sort for the consistent comparators produced by this code. -/

/-- A value after `coerceValue`. -/
inductive JVal
  | jq (d : Dec)
  | js (s : List Char)
  | jnull
  | jundef
  deriving DecidableEq

/-- `coerceValue(val)` from the source: `null`/`undefined` returned
unchanged, else `Number(val)` unless that is `NaN`. -/
def coerceValue : Value → JVal
  | Value.vNull => JVal.jnull
  | Value.vUndef => JVal.jundef
  | Value.vNum n => JVal.jq (Dec.ofInt n)
  | Value.vStr s =>
    match jsNumberStr s.data with
    | some d => JVal.jq d
    | none => JVal.js s.data

/-- Lexicographic code-unit comparison (JavaScript `<` on strings). -/
def lexLt : List Char → List Char → Bool
  | _, [] => false
  | [], _ :: _ => true
  | c :: cs, d :: ds =>
    if c.val < d.val then true
    else if d.val < c.val then false
    else lexLt cs ds

/-- `ToNumber` on a coerced value, for the non-both-strings branch of
JavaScript `<`. -/
def jvalToNumber : JVal → Option Dec
  | JVal.jq d => some d
  | JVal.js s => jsNumberStr s
  | JVal.jnull => some (Dec.ofInt 0)
  | JVal.jundef => none

/-- JavaScript `<` on coerced values. -/
def jsLt (a b : JVal) : Bool :=
  match a, b with
  | JVal.js s, JVal.js t => lexLt s t
  | _, _ =>
    match jvalToNumber a, jvalToNumber b with
    | some x, some y => decLt x y
    | _, _ => false

/-- Whether the sort is descending:
`orderDir?.toUpperCase() === "DESC"` (`undefined` compares false). -/
def descFlag : Option String → Bool
  | none => false
  | some d => toUpperList d.data = ("DESC").data

/-- The comparator passed to `rows.sort` in the source. -/
def rowCmp (field : String) (desc : Bool) (a b : Row) : Int :=
  let av := coerceValue (rowGet a field.data)
  let bv := coerceValue (rowGet b field.data)
  if jsLt av bv then (if desc then 1 else -1)
  else if jsLt bv av then (if desc then -1 else 1)
  else 0

/-- Insert `x` after every element comparing `≤ 0` against it (stable
insertion step). -/
def insAfterEq {α : Type} (cmp : α → α → Int) (x : α) : List α → List α
  | [] => [x]
  | y :: ys => if cmp y x ≤ 0 then y :: insAfterEq cmp x ys else x :: y :: ys

/-- Stable sort by a three-way comparator (agrees with the
specification-mandated stable `Array.prototype.sort` on consistent
comparators). -/
def sortByCmp {α : Type} (cmp : α → α → Int) (l : List α) : List α :=
  l.foldl (fun acc x => insAfterEq cmp x acc) []

/-- The `ORDER BY` step of `select`: sort the rows by the coerced sort
key in the given direction. -/
def orderRows (field : String) (dir : Option String) (rows : List Row) : List Row :=
  sortByCmp (rowCmp field (descFlag dir)) rows

/-! ### Statement parsing

The four statement regexes are embedded as backtracking matchers, one
per clause shape.  Since this layer models a single table whose rows the
caller passes in (the spec treats `load`/`save` as an external
collaborator), each `…Run` function maps the statement text and current
rows to the result and the rows the collaborator is asked to persist;
a parse failure throws before any `load`/`save`, so the rows come back
untouched. -/

/-- `INSERT INTO (\w+)\s*\((.+?)\)\s*VALUES\s*\((.+)\)` (case-insensitive,
unanchored): after `VALUES\s*\(`, the greedy `(.+)\)` captures up to the
last `)` inside the maximal run of non-line-terminator characters. -/
def lastParenContent (l : List Char) : Option (List Char) :=
  let run := l.takeWhile jsDot
  match run.reverse.dropWhile (fun d => ¬ (d = cparen)) with
  | [] => none
  | _ :: tl => if tl = [] then none else some tl.reverse

/-- The `\)\s*VALUES\s*\((.+)\)` part that must follow the lazy column
group (given the text after the candidate `)`). -/
def insValuesTail (afterParen : List Char) : Option (List Char) :=
  match ciStrip (("VALUES").data) (afterParen.dropWhile isWsChar) with
  | none => none
  | some r =>
    match r.dropWhile isWsChar with
    | c :: r2 => if c = oparen then lastParenContent r2 else none
    | [] => none

/-- The lazy `(.+?)` column group: grow the accumulator one
non-line-terminator character at a time, at each step first trying to
close with `\)` and match the rest of the pattern. -/
def insertTailGo (acc : List Char) : List Char → Option (List Char × List Char)
  | [] => none
  | c :: cs =>
    if ¬ (acc = []) ∧ c = cparen then
      match insValuesTail cs with
      | some vals => some (acc.reverse, vals)
      | none => if jsDot c then insertTailGo (c :: acc) cs else none
    else if jsDot c then insertTailGo (c :: acc) cs else none

/-- An INSERT match attempt anchored at the head of `l`. -/
def insertMatchAt (l : List Char) : Option (List Char × List Char × List Char) :=
  match ciStrip (("INSERT INTO ").data) l with
  | none => none
  | some r =>
    let wrun := r.takeWhile isWordChar
    if wrun = [] then none
    else
      match (r.drop wrun.length).dropWhile isWsChar with
      | c :: r2 =>
        if c = oparen then
          (insertTailGo [] r2).map (fun cv => (wrun, cv.1, cv.2))
        else none
      | [] => none

/-- Leftmost match of the INSERT pattern: `(table, cols, vals)`. -/
def insertMatch : List Char → Option (List Char × List Char × List Char)
  | [] => none
  | l@(_ :: cs) =>
    match insertMatchAt l with
    | some t => some t
    | none => insertMatch cs

/-- A DELETE match attempt anchored at the head of `l`:
`DELETE FROM (\w+)(?: WHERE (.+))?$` — the optional group is tried
first (greedy `?`), then the bare end of string. -/
def deleteMatchAt (l : List Char) : Option (List Char × Option (List Char)) :=
  match ciStrip (("DELETE FROM ").data) l with
  | none => none
  | some r =>
    let wrun := r.takeWhile isWordChar
    if wrun = [] then none
    else
      let rest := r.drop wrun.length
      match ciStrip ((" WHERE ").data) rest with
      | some w => if ¬ (w = []) ∧ w.all jsDot then some (wrun, some w) else
          if rest = [] then some (wrun, none) else none
      | none => if rest = [] then some (wrun, none) else none

/-- Leftmost match of the DELETE pattern: `(table, whereClause?)`. -/
def deleteMatch : List Char → Option (List Char × Option (List Char))
  | [] => none
  | l@(_ :: cs) =>
    match deleteMatchAt l with
    | some t => some t
    | none => deleteMatch cs

/-- The `(.+)$` group after `WHERE\s+`, with the trailing `\s+` run
backtracking from maximal down to one character. -/
def updWhereRest : Nat → List Char → Option (List Char)
  | 0, _ => none
  | m + 1, afterW =>
    let w := afterW.drop (m + 1)
    if ¬ (w = []) ∧ w.all jsDot then some w else updWhereRest m afterW

/-- The `\s+WHERE\s+(.+)$` tail of the UPDATE pattern. -/
def updTailWs (rest : List Char) : Option (List Char) :=
  let lead := rest.takeWhile isWsChar
  if lead = [] then none
  else
    match ciStrip (("WHERE").data) (rest.drop lead.length) with
    | none => none
    | some afterW => updWhereRest (afterW.takeWhile isWsChar).length afterW

/-- The lazy `(.+?)(?:\s+WHERE\s+(.+))?$` part of the UPDATE pattern:
grow the SET clause; at each boundary first try the WHERE tail
(optional group present), then the end of input (absent). -/
def updContentGo (acc : List Char) : List Char → Option (List Char × Option (List Char))
  | [] =>
    if acc = [] then none
    else
      match updTailWs [] with
      | some w => some (acc.reverse, some w)
      | none => some (acc.reverse, none)
  | c :: cs =>
    if acc = [] then
      if jsDot c then updContentGo (c :: acc) cs else none
    else
      match updTailWs (c :: cs) with
      | some w => some (acc.reverse, some w)
      | none => if jsDot c then updContentGo (c :: acc) cs else none

/-- The `\s+` run before the SET content, backtracking from maximal
down to one character. -/
def updSetWs : Nat → List Char → Option (List Char × Option (List Char))
  | 0, _ => none
  | m + 1, r =>
    match updContentGo [] (r.drop (m + 1)) with
    | some x => some x
    | none => updSetWs m r

/-- An UPDATE match attempt anchored at the head of `l`:
`UPDATE (\w+)\s+SET\s+(.+?)(?:\s+WHERE\s+(.+))?$`. -/
def updateMatchAt (l : List Char) : Option (List Char × List Char × Option (List Char)) :=
  match ciStrip (("UPDATE ").data) l with
  | none => none
  | some r =>
    let wrun := r.takeWhile isWordChar
    if wrun = [] then none
    else
      let r1 := r.drop wrun.length
      let lead := r1.takeWhile isWsChar
      if lead = [] then none
      else
        match ciStrip (("SET").data) (r1.drop lead.length) with
        | none => none
        | some r2 =>
          match updSetWs (r2.takeWhile isWsChar).length r2 with
          | some (sc, wo) => some (wrun, sc, wo)
          | none => none

/-- Leftmost match of the UPDATE pattern:
`(table, setClause, whereClause?)`. -/
def updateMatch : List Char → Option (List Char × List Char × Option (List Char))
  | [] => none
  | l@(_ :: cs) =>
    match updateMatchAt l with
    | some t => some t
    | none => updateMatch cs

/-! ### Statement execution (`insert` lines 87-107, `delete` lines
109-123, `update` lines 125-157)

Each `…Run` function returns the statement result (`Except` whose
`error` is the thrown message) together with the row sequence the
storage collaborator holds after the call — unchanged when the parse
throws, since the throw happens before any `load`/`save`. -/

/-- `columns.forEach((c, i) => row[c] = values[i])`: zip positionally,
with missing values becoming `undefined`. -/
def buildRow (cols : List (List Char)) (vals : List (List Char)) : Row :=
  (cols.enum).foldl
    (fun acc ic =>
      rowSet acc (String.mk ic.2)
        (match vals.get? ic.1 with
          | some v => Value.vStr (String.mk v)
          | none => Value.vUndef))
    []

/-- `insert(sql)` with the current rows passed explicitly: parse, split
columns and values (quote-aware), strip one quote layer from each
value, build the record and append it. -/
def insertRun (sql : String) (data : List Row) : Except String Row × List Row :=
  match insertMatch sql.data with
  | none => (Except.error ("Invalid INSERT syntax"), data)
  | some (_table, cols, vals) =>
    let columns := splitRespectingQuotes cols commaChar
    let values := (splitRespectingQuotes vals commaChar).map stripQuotes
    let row := buildRow columns values
    (Except.ok row, data ++ [row])

/-- `delete(sql)`: with a WHERE clause keep the non-matching rows, else
empty the table. -/
def deleteRun (sql : String) (data : List Row) : Except String Unit × List Row :=
  match deleteMatch sql.data with
  | none => (Except.error ("Invalid DELETE syntax"), data)
  | some (_table, whereOpt) =>
    match whereOpt with
    | some w => (Except.ok (), data.filter (fun row => ¬ (evalWhere w row = true)))
    | none => (Except.ok (), [])

/-- Split an assignment pair at the first `=`; `none` when there is no
`=` (the pair is skipped).  Key and raw value are trimmed and one quote
layer is stripped from the value. -/
def splitAtEq (pair : List Char) : Option (List Char × List Char) :=
  let pre := pair.takeWhile (fun c => ¬ (c = eqChar))
  if pre.length = pair.length then none
  else some (trimL pre, stripQuotes (trimL (pair.drop (pre.length + 1))))

/-- Spread merge `{ ...row, ...updates }`: existing keys overwritten in
place, new keys appended in update order. -/
def mergeRow (row : Row) (updates : Row) : Row :=
  updates.foldl (fun acc kv => rowSet acc kv.1 kv.2) row

/-- The assignment object built from the SET clause. -/
def updatesOf (setClause : List Char) : Row :=
  (splitRespectingQuotes setClause commaChar).foldl
    (fun acc pair =>
      match splitAtEq pair with
      | none => acc
      | some (k, v) => rowSet acc (String.mk k) (Value.vStr (String.mk v)))
    []

/-- Whether a row is touched by the UPDATE:
`!whereClause || this.evalWhere(whereClause, row)`. -/
def updateHits (whereOpt : Option (List Char)) (row : Row) : Bool :=
  match whereOpt with
  | none => true
  | some w => evalWhere w row

/-- `update(sql)`: merge the assignment object into every matching row,
returning the count of touched rows. -/
def updateRun (sql : String) (data : List Row) : Except String Nat × List Row :=
  match updateMatch sql.data with
  | none => (Except.error ("Invalid UPDATE syntax"), data)
  | some (_table, setClause, whereOpt) =>
    let updates := updatesOf setClause
    let newData := data.map
      (fun row => if updateHits whereOpt row then mergeRow row updates else row)
    (Except.ok (data.countP (updateHits whereOpt)), newData)

/-! ### Helper lemmas -/

/-- A pattern made only of literal tokens matches exactly the
case-insensitively equal strings (whole-string, since the pattern is
anchored). -/
theorem likeMatch_lit_iff (v : List Char) : ∀ s : List Char,
    likeMatch (v.map LikeTok.lit) s = true ↔ v.map Char.toLower = s.map Char.toLower := by
  induction v with
  | nil => intro s; cases s <;> simp [likeMatch]
  | cons c cs ih =>
    intro s
    cases s with
    | nil => simp [likeMatch]
    | cons d ds => simp [likeMatch, ih ds]

/-- `.*` alone matches any string of `.`-matchable characters,
including the empty one. -/
theorem likeMatch_star (s : List Char) (h : s.all jsDot = true) :
    likeMatch [LikeTok.anyStar] s = true := by
  induction s with
  | nil => decide
  | cons d ds ih =>
    simp only [List.all_cons, Bool.and_eq_true] at h
    have hrec := ih h.2
    simp only [likeMatch, dotTails, h.1, if_true, List.any_cons] at hrec ⊢
    simp [hrec]

/-- Mapping a function that fixes every member is the identity. -/
theorem list_map_id_of_mem {α : Type} (l : List α) (f : α → α)
    (h : ∀ a ∈ l, f a = a) : l.map f = l := by
  induction l with
  | nil => rfl
  | cons a as ih =>
    simp only [List.map_cons, h a (by simp)]
    rw [ih (fun b hb => h b (by simp [hb]))]

/-- A predicate false on every member counts zero. -/
theorem list_countP_zero {α : Type} (l : List α) (p : α → Bool)
    (h : ∀ a ∈ l, p a = false) : l.countP p = 0 := by
  induction l with
  | nil => rfl
  | cons a as ih =>
    rw [List.countP_cons]
    simp [h a (by simp), ih (fun b hb => h b (by simp [hb]))]

/-! ### Claims -/

/-- C1: WHERE evaluation implements OR-of-ANDs precedence: the filter is
split on OR, a record matches iff at least one OR-branch matches, each
branch is split on AND and matches iff all its AND-terms match; for
every record, the filter `(city = "Berlin" AND age > 30) OR
city = "Paris"` matches exactly when either parenthesized branch does. -/
theorem c1_where_or_of_ands :
    (∀ (w : String) (row : Row),
      evalWhereS w row = true ↔
        ∃ p ∈ splitLogicalOperator w.data orTok,
          ∀ t ∈ splitLogicalOperator (stripWrap p) andTok,
            evalCondition (stripWrap t) row = true) ∧
    (∀ row : Row,
      evalWhereS ("(city = \"Berlin\" AND age > 30) OR city = \"Paris\"") row
        = ((evalConditionS ("city = \"Berlin\"") row
              && evalConditionS ("age > 30") row)
            || evalConditionS ("city = \"Paris\"") row)) := by
  constructor
  · intro w row
    simp only [evalWhereS, evalWhere, evalOrBranch, List.any_eq_true, List.all_eq_true]
  · intro row
    have h1 : splitLogicalOperator (("(city = \"Berlin\" AND age > 30) OR city = \"Paris\"").data) orTok
        = [("(city = \"Berlin\" AND age > 30)").data, ("city = \"Paris\"").data] := by decide
    have h2 : stripWrap (("(city = \"Berlin\" AND age > 30)").data)
        = ("city = \"Berlin\" AND age > 30").data := by decide
    have h3 : splitLogicalOperator (("city = \"Berlin\" AND age > 30").data) andTok
        = [("city = \"Berlin\"").data, ("age > 30").data] := by decide
    have h4 : stripWrap (("city = \"Berlin\"").data) = ("city = \"Berlin\"").data := by decide
    have h5 : stripWrap (("age > 30").data) = ("age > 30").data := by decide
    have h6 : stripWrap (("city = \"Paris\"").data) = ("city = \"Paris\"").data := by decide
    have h7 : splitLogicalOperator (("city = \"Paris\"").data) andTok
        = [("city = \"Paris\"").data] := by decide
    simp only [evalWhereS, evalWhere, h1, List.any_cons, List.any_nil, Bool.or_false,
      evalOrBranch, h2, h3, h4, h5, h6, h7, List.all_cons, List.all_nil, Bool.and_true,
      evalConditionS]

/-- C2 counterexample: the claim says mismatched parenthesization
evaluates to false, but the unanchored leaf matcher re-parses `(a=1`
as the condition `a=1`, which is true on a record with `a = "1"`. -/
theorem c2_counterexample :
    evalWhereS ("(a=1") [(("a"), Value.vStr ("1"))] = true := by decide

/-- C2 (amended): WHERE evaluation is total (never raises) and a leaf
text with no field-operator-value substring evaluates to false;
mismatched parenthesization and deeply nested mixed AND/OR expressions
do not raise either, but their lenient re-parse may evaluate to true
rather than false. -/
theorem c2_lenient_leaf_false :
    ∀ (e : String) (row : Row), condMatch e.data = none → evalConditionS e row = false := by
  intro e row h
  simp [evalConditionS, evalCondition, h]

/-- Witness for C2 (amended): a concrete leaf with no condition
substring evaluates to false. -/
theorem c2_lenient_leaf_false_witness :
    condMatch (("hello world").data) = none ∧ evalConditionS ("hello world") [] = false :=
  ⟨by decide, c2_lenient_leaf_false ("hello world") [] (by decide)⟩

/-- C5: WHERE evaluation is a pure function of filter text and record
(it is a Lean function of exactly these two arguments), and OR is
commutative at the evaluator level for `a=1 OR b=2` vs `b=2 OR a=1`,
for every record. -/
theorem c5_or_commutative :
    ∀ row : Row, evalWhereS ("a=1 OR b=2") row = evalWhereS ("b=2 OR a=1") row := by
  intro row
  have h1 : splitLogicalOperator (("a=1 OR b=2").data) orTok
      = [("a=1").data, ("b=2").data] := by decide
  have h2 : splitLogicalOperator (("b=2 OR a=1").data) orTok
      = [("b=2").data, ("a=1").data] := by decide
  simp only [evalWhereS, evalWhere, h1, h2, List.any_cons, List.any_nil, Bool.or_false]
  exact Bool.or_comm _ _

/-- C9: the leaf-condition matcher is unanchored: `a=1 OR b=2` handed to
the condition evaluator as one leaf matches at its first
field-operator-value substring and evaluates exactly as `a=1` would on
every record. -/
theorem c9_leaf_unanchored :
    condMatch (("a=1 OR b=2").data) = some ((("a").data, ("=").data, ("1").data)) ∧
    ∀ row : Row, evalConditionS ("a=1 OR b=2") row = evalConditionS ("a=1") row := by
  constructor
  · decide
  · intro row
    have h1 : condMatch (("a=1 OR b=2").data)
        = some ((("a").data, ("=").data, ("1").data)) := by decide
    have h2 : condMatch (("a=1").data)
        = some ((("a").data, ("=").data, ("1").data)) := by decide
    simp only [evalConditionS, evalCondition, h1, h2]

/-- C3: LIKE compiles the quote-stripped literal to a case-insensitive,
fully anchored pattern whose non-wildcard characters are literal
(every metacharacter is escaped), `%` matches zero or more characters
and `_` exactly one; hence a field value with a literal `.` never
spuriously matches a pattern whose `.` was meant literally. -/
theorem c3_like_semantics :
    (∀ (v s : List Char), (∀ c ∈ v, ¬ (c.val = 37) ∧ ¬ (c.val = 95)) →
      (likeMatch (likeToks v) s = true ↔ v.map Char.toLower = s.map Char.toLower)) ∧
    (∀ s : List Char, s.all jsDot = true → likeMatch [LikeTok.anyStar] s = true) ∧
    evalConditionS ("name LIKE \"a.c\"") [(("name"), Value.vStr ("axc"))] = false ∧
    evalConditionS ("name LIKE \"a.c\"") [(("name"), Value.vStr ("a.c"))] = true ∧
    evalConditionS ("name LIKE \"a%c\"") [(("name"), Value.vStr ("ac"))] = true ∧
    evalConditionS ("name LIKE \"a%c\"") [(("name"), Value.vStr ("aXYZ123c"))] = true ∧
    evalConditionS ("name LIKE \"a_c\"") [(("name"), Value.vStr ("abc"))] = true ∧
    evalConditionS ("name LIKE \"a_c\"") [(("name"), Value.vStr ("ac"))] = false := by
  refine ⟨?_, likeMatch_star, by decide, by decide, by decide, by decide, by decide, by decide⟩
  intro v s h
  have hv : likeToks v = v.map LikeTok.lit := by
    apply List.map_congr_left
    intro c hc
    simp [(h c hc).1, (h c hc).2]
  rw [hv]
  exact likeMatch_lit_iff v s

/-- Witness for C3: the wildcard-free case at a concrete pattern and
string, and `%` on a concrete string. -/
theorem c3_like_semantics_witness :
    ((∀ c ∈ (("ab").data), ¬ (c.val = 37) ∧ ¬ (c.val = 95)) ∧
      (likeMatch (likeToks (("ab").data)) (("AB").data) = true ↔
        ((("ab").data).map Char.toLower = (("AB").data).map Char.toLower))) ∧
    ((("xyz").data).all jsDot = true ∧ likeMatch [LikeTok.anyStar] (("xyz").data) = true) :=
  ⟨⟨by decide, c3_like_semantics.1 (("ab").data) (("AB").data) (by decide)⟩,
   ⟨by decide, c3_like_semantics.2.1 (("xyz").data) (by decide)⟩⟩

/-- C4: the quote-aware splitter keeps quoted spans atomic when
splitting on commas, so `INSERT ... VALUES (1, "Smith, John")` stores
`Smith, John` as one value; the final trailing segment is appended only
if non-empty after trimming. -/
theorem c4_quoted_splitter :
    splitRespectingQuotesS ("1, \"Smith, John\"") commaChar = [("1"), ("\"Smith, John\"")] ∧
    insertRun ("INSERT INTO users (id, name) VALUES (1, \"Smith, John\")") []
      = (Except.ok [(("id"), Value.vStr ("1")), (("name"), Value.vStr ("Smith, John"))],
         [[(("id"), Value.vStr ("1")), (("name"), Value.vStr ("Smith, John"))]]) ∧
    splitRespectingQuotesS ("a, b, ") commaChar = [("a"), ("b")] ∧
    splitRespectingQuotesS ("a, b, c") commaChar = [("a"), ("b"), ("c")] :=
  ⟨by decide, by decide, by decide, by decide⟩

/-- C6: ORDER BY coerces a sort key to a number when `Number` parses it
and otherwise compares lexicographically, with direction defaulting to
ascending: sorting `["100","20","5"]` descending keeps that order
(numeric), sorting `["Zara","Alice","Bob"]` ascending yields
`["Alice","Bob","Zara"]` (lexicographic). -/
theorem c6_order_by_coercion :
    (∀ (field : String) (rows : List Row),
      orderRows field none rows = orderRows field (some ("ASC")) rows) ∧
    coerceValue (Value.vStr ("100")) = JVal.jq (Dec.ofInt 100) ∧
    coerceValue (Value.vStr ("Zara")) = JVal.js (("Zara").data) ∧
    orderRows ("v") (some ("DESC"))
      [[(("v"), Value.vStr ("100"))], [(("v"), Value.vStr ("20"))], [(("v"), Value.vStr ("5"))]]
      = [[(("v"), Value.vStr ("100"))], [(("v"), Value.vStr ("20"))], [(("v"), Value.vStr ("5"))]] ∧
    orderRows ("name") none
      [[(("name"), Value.vStr ("Zara"))], [(("name"), Value.vStr ("Alice"))], [(("name"), Value.vStr ("Bob"))]]
      = [[(("name"), Value.vStr ("Alice"))], [(("name"), Value.vStr ("Bob"))], [(("name"), Value.vStr ("Zara"))]] := by
  refine ⟨?_, by decide, by decide, by decide, by decide⟩
  intro field rows
  rfl

/-- C7: DELETE with no WHERE clause empties the table; UPDATE whose
WHERE clause matches no record returns update-count 0 and leaves every
record unchanged. -/
theorem c7_delete_update_frame :
    (∀ (sql : String) (data : List Row) (t : List Char),
      deleteMatch sql.data = some ((t, (none : Option (List Char)))) →
      deleteRun sql data = (Except.ok (), [])) ∧
    (∀ (sql : String) (data : List Row) (t sc w : List Char),
      updateMatch sql.data = some ((t, sc, some w)) →
      (∀ r ∈ data, evalWhere w r = false) →
      updateRun sql data = (Except.ok 0, data)) := by
  constructor
  · intro sql data t h
    simp [deleteRun, h]
  · intro sql data t sc w h hnone
    have hcount : data.countP (updateHits (some w)) = 0 :=
      list_countP_zero data _ (fun a ha => by simp [updateHits, hnone a ha])
    have hmap : data.map
        (fun row => if updateHits (some w) row then mergeRow row (updatesOf sc) else row) = data :=
      list_map_id_of_mem data _ (fun a ha => by simp [updateHits, hnone a ha])
    simp [updateRun, h, hcount, hmap]

/-- Witness for C7: a concrete WHERE-less DELETE empties a non-empty
table, and a concrete zero-match UPDATE reports 0 and changes nothing. -/
theorem c7_delete_update_frame_witness :
    (deleteMatch (("DELETE FROM users").data)
        = some ((("users").data, (none : Option (List Char)))) ∧
      deleteRun ("DELETE FROM users") [[(("x"), Value.vNull)]] = (Except.ok (), [])) ∧
    (updateMatch (("UPDATE t SET a=1 WHERE name=\"nobody\"").data)
        = some ((("t").data, ("a=1").data, some (("name=\"nobody\"").data))) ∧
      (∀ r ∈ [[(("name"), Value.vStr ("x"))]], evalWhere (("name=\"nobody\"").data) r = false) ∧
      updateRun ("UPDATE t SET a=1 WHERE name=\"nobody\"") [[(("name"), Value.vStr ("x"))]]
        = (Except.ok 0, [[(("name"), Value.vStr ("x"))]])) :=
  ⟨⟨by decide, c7_delete_update_frame.1 ("DELETE FROM users") [[(("x"), Value.vNull)]]
      (("users").data) (by decide)⟩,
   ⟨by decide, by decide,
     c7_delete_update_frame.2 ("UPDATE t SET a=1 WHERE name=\"nobody\"")
       [[(("name"), Value.vStr ("x"))]] (("t").data) (("a=1").data)
       (("name=\"nobody\"").data) (by decide) (by decide)⟩⟩

/-- C8: parse failures are atomic: when clause extraction fails the
call terminates with the parse error and the stored row sequence comes
back untouched — in particular an INSERT that fails to parse appends
nothing and performs no save. -/
theorem c8_parse_failure_atomic :
    (∀ (sql : String) (data : List Row), insertMatch sql.data = none →
      insertRun sql data = (Except.error ("Invalid INSERT syntax"), data)) ∧
    (∀ (sql : String) (data : List Row), deleteMatch sql.data = none →
      deleteRun sql data = (Except.error ("Invalid DELETE syntax"), data)) ∧
    (∀ (sql : String) (data : List Row), updateMatch sql.data = none →
      updateRun sql data = (Except.error ("Invalid UPDATE syntax"), data)) := by
  refine ⟨?_, ?_, ?_⟩
  · intro sql data h
    simp [insertRun, h]
  · intro sql data h
    simp [deleteRun, h]
  · intro sql data h
    simp [updateRun, h]

/-- Witness for C8: concrete malformed INSERT, DELETE and UPDATE
statements error out with the rows unchanged. -/
theorem c8_parse_failure_atomic_witness :
    (insertMatch (("INSERT INTO users VALUES (1)").data) = none ∧
      insertRun ("INSERT INTO users VALUES (1)") [[(("x"), Value.vNull)]]
        = (Except.error ("Invalid INSERT syntax"), [[(("x"), Value.vNull)]])) ∧
    (deleteMatch (("DELETE users").data) = none ∧
      deleteRun ("DELETE users") [[(("x"), Value.vNull)]]
        = (Except.error ("Invalid DELETE syntax"), [[(("x"), Value.vNull)]])) ∧
    (updateMatch (("UPDATE users").data) = none ∧
      updateRun ("UPDATE users") [[(("x"), Value.vNull)]]
        = (Except.error ("Invalid UPDATE syntax"), [[(("x"), Value.vNull)]])) :=
  ⟨⟨by decide, c8_parse_failure_atomic.1 ("INSERT INTO users VALUES (1)")
      [[(("x"), Value.vNull)]] (by decide)⟩,
   ⟨by decide, c8_parse_failure_atomic.2.1 ("DELETE users")
      [[(("x"), Value.vNull)]] (by decide)⟩,
   ⟨by decide, c8_parse_failure_atomic.2.2 ("UPDATE users")
      [[(("x"), Value.vNull)]] (by decide)⟩⟩

/-- C10: quote stripping removes at most one leading and one trailing
quote character independently — they need not both be present nor
match in type — so mismatched-quote values are treated as their bare
content by the `=`, LIKE and IN evaluators and by INSERT and UPDATE
value handling. -/
theorem c10_quote_stripping :
    stripQuotes (("\"abc'").data) = ("abc").data ∧
    stripQuotes (("'abc").data) = ("abc").data ∧
    stripQuotes (("abc\"").data) = ("abc").data ∧
    evalConditionS ("name = \"abc'") [(("name"), Value.vStr ("abc"))] = true ∧
    evalConditionS ("name LIKE 'abc") [(("name"), Value.vStr ("abc"))] = true ∧
    evalConditionS ("name IN ('abc)") [(("name"), Value.vStr ("abc"))] = true ∧
    insertRun ("INSERT INTO t (name) VALUES ('abc)") []
      = (Except.ok [(("name"), Value.vStr ("abc"))], [[(("name"), Value.vStr ("abc"))]]) ∧
    updateRun ("UPDATE t SET name=abc\"") [[(("name"), Value.vStr ("x"))]]
      = (Except.ok 1, [[(("name"), Value.vStr ("abc"))]]) :=
  ⟨by decide, by decide, by decide, by decide, by decide, by decide, by decide, by decide⟩

